import Mathlib

/-!
Verification of the NAA_CAE claims-challenge token-acquisition core.

Shallow embedding of `src/auth/claimsManager.ts`, `src/auth/authConfig.ts`
and `src/auth/authService.ts`:

* browser `sessionStorage` is modelled as an association list of
  string keys to string values (`setItem` overwrites, `getItem` reads,
  `removeItem` deletes);
* JavaScript truthiness of an optional string (`undefined` and `""`
  are falsy) is `truthyOpt`;
* the opaque identity-provider client (MSAL) is an oracle: each call
  to `acquireTokenSilent` / `acquireTokenPopup` is given its outcome
  (`Except JsError AuthenticationResult`) as a parameter, and the
  embedding records the requests passed to it and the store contents
  at each point, so that the observable behaviour of `acquireToken`
  and `callGraphWithClaimsRetry` can be stated and proved.
-/

namespace NaaCae

/-! ### Session storage (`sessionStorage` as used by claimsManager.ts) -/

/-- A session-storage snapshot: an association list of key/value pairs. -/
abbrev Store := List (String × String)

/-- `sessionStorage.getItem`: the value stored at `key`, if any. -/
def getItem : Store → String → Option String
  | [], _ => none
  | (k, v) :: rest, key => if k = key then some v else getItem rest key

/-- `sessionStorage.removeItem`: delete every binding of `key`. -/
def removeItem : Store → String → Store
  | [], _ => []
  | (k, v) :: rest, key =>
      if k = key then removeItem rest key else (k, v) :: removeItem rest key

/-- `sessionStorage.setItem`: overwrite the binding of `key` with `v`. -/
def setItem (st : Store) (key v : String) : Store :=
  (key, v) :: removeItem st key

/-! ### claimsManager.ts : per-resource challenge store -/

/-- The storage key used for `resource` (constant key stem
`"naa_cae_claims_"` followed by the resource identifier, as in
`claimsManager.ts`). -/
def claimsKeyOf (resource : String) : String :=
  "naa_cae_claims_" ++ resource

/-- `storeClaimsChallenge(resource, claims)` from claimsManager.ts. -/
def storeClaimsChallenge (st : Store) (resource claims : String) : Store :=
  setItem st (claimsKeyOf resource) claims

/-- `getStoredClaimsChallenge(resource)` from claimsManager.ts
(`getItem(...) ?? undefined`; both `null` and `undefined` are `none`). -/
def getStoredClaimsChallenge (st : Store) (resource : String) : Option String :=
  getItem st (claimsKeyOf resource)

/-- `clearClaimsChallenge(resource)` from claimsManager.ts. -/
def clearClaimsChallenge (st : Store) (resource : String) : Store :=
  removeItem st (claimsKeyOf resource)

/-! ### JavaScript truthiness for optional strings -/

/-- JS truthiness of a `string | undefined` value: `undefined` and the
empty string are falsy, every other string is truthy. -/
def truthyOpt : Option String → Bool
  | none => false
  | some s => s ≠ ""

/-! ### authConfig.ts : request construction -/

/-- The fields of an MSAL `PopupRequest` that the repository reads or
writes.  `forceRefresh : Option Bool` distinguishes "field absent"
(`none`) from an explicitly assigned boolean. -/
structure PopupRequest where
  scopes : List String
  claims : Option String := none
  account : Option String := none
  forceRefresh : Option Bool := none
deriving Repr, DecidableEq

/-- `buildGraphRequest(scopes, claimsChallenge)` from authConfig.ts:
the claims challenge is attached only when it is truthy. -/
def buildGraphRequest (scopes : List String)
    (claimsChallenge : Option String) : PopupRequest :=
  if truthyOpt claimsChallenge then
    { scopes := scopes, claims := claimsChallenge }
  else
    { scopes := scopes }

/-! ### authService.ts : acquireToken -/

/-- The fields of an MSAL `AuthenticationResult` the repository uses. -/
structure AuthenticationResult where
  accessToken : String
  account : Option String := none
deriving Repr, DecidableEq

/-- Errors thrown by the identity-provider client: an
`InteractionRequiredAuthError` (whose `claims` field may be absent),
or any other error (opaque payload). -/
inductive JsError where
  | interactionRequired (claims : Option String)
  | other (message : String)
deriving Repr, DecidableEq

/-- Everything observable about one run of `acquireToken`:
the request passed to `acquireTokenSilent`, the request passed to
`acquireTokenPopup` together with the store contents at the moment of
that call (both `none` when no interactive attempt is made), the
returned value or propagated error, and the final store contents. -/
structure AcquireOutcome where
  silentRequest : PopupRequest
  interactiveRequest : Option PopupRequest
  storeAtInteractive : Option Store
  result : Except JsError AuthenticationResult
  finalStore : Store
deriving Repr

/-- The request built by lines 130–146 of authService.ts: inject the
stored challenge (if truthy), attach the active account (if any), and
set `forceRefresh` when a truthy challenge is stored. -/
def buildRequest (scopes : List String) (resource : String) (st : Store)
    (account : Option String) : PopupRequest :=
  let storedClaims := getStoredClaimsChallenge st resource
  let request0 := buildGraphRequest scopes storedClaims
  let request1 :=
    match account with
    | some a => { request0 with account := some a }
    | none => request0
  if truthyOpt storedClaims then
    { request1 with forceRefresh := some true }
  else
    request1

/-- `acquireToken(scopes, resource)` from authService.ts, with the
identity provider's answers supplied as oracles: `silentOutcome` is
what `acquireTokenSilent` does with the built request, and
`interactiveOutcome` what `acquireTokenPopup` does if it is reached. -/
def acquireToken (scopes : List String) (resource : String) (st : Store)
    (account : Option String)
    (silentOutcome interactiveOutcome : Except JsError AuthenticationResult) :
    AcquireOutcome :=
  let storedClaims := getStoredClaimsChallenge st resource
  let request := buildRequest scopes resource st account
  match silentOutcome with
  | .ok result =>
      -- silent success: clear the challenge iff one was (truthily) stored
      { silentRequest := request
        interactiveRequest := none
        storeAtInteractive := none
        result := .ok result
        finalStore :=
          if truthyOpt storedClaims then clearClaimsChallenge st resource
          else st }
  | .error e =>
      match e with
      | .interactionRequired errClaims =>
          -- attach and store the error's claims when truthy, then popup
          let attach := truthyOpt errClaims
          let request' :=
            if attach then { request with claims := errClaims } else request
          let st' :=
            if attach then
              storeClaimsChallenge st resource (errClaims.getD "")
            else st
          match interactiveOutcome with
          | .ok result =>
              { silentRequest := request
                interactiveRequest := some request'
                storeAtInteractive := some st'
                result := .ok result
                finalStore := clearClaimsChallenge st' resource }
          | .error e2 =>
              { silentRequest := request
                interactiveRequest := some request'
                storeAtInteractive := some st'
                result := .error e2
                finalStore := st' }
      | .other _ =>
          { silentRequest := request
            interactiveRequest := none
            storeAtInteractive := none
            result := .error e
            finalStore := st }

/-! ### claimsManager.ts : header parsing

The regular expression of the source is `claims="([^"]+)"` with the
case-insensitive flag: scanning positions left to right, it matches at
the first position where a case variant of `claims="` is followed by
at least one non-quote character and then a closing quote; the capture
is the maximal run of non-quote characters after the opening quote. -/

/-- The literal part of the pattern, lowercased: `claims="`. -/
def keyChars : List Char := ['c', 'l', 'a', 'i', 'm', 's', '=', '"']

/-- Does `l` start with the pattern `p`, matching letters
case-insensitively (ASCII lowercasing, as both the pattern and
`Char.toLower` act only on ASCII letters)? -/
def matchesKeyCI : List Char → List Char → Bool
  | [], _ => true
  | _ :: _, [] => false
  | p :: ps, c :: cs => p == c.toLower && matchesKeyCI ps cs

/-- The character class `[^"]` of the pattern. -/
def notQuote (x : Char) : Bool := x ≠ '"'

/-- The regex match of `/claims="([^"]+)"/i` on a character list:
the capture group of the leftmost match, if any. -/
def extractClaims : List Char → Option (List Char)
  | [] => none
  | c :: rest =>
      if matchesKeyCI keyChars (c :: rest) then
        let after := rest.drop 7
        let grp := after.takeWhile notQuote
        if grp.length ≠ 0 ∧ grp.length < after.length then some grp
        else extractClaims rest
      else extractClaims rest

/-! ### `atob`: forgiving base64 decoding

Model of the HTML forgiving-base64 decode used by `atob`: strip ASCII
whitespace; if the length is then a multiple of four, strip up to two
trailing `=`; fail when the remaining length is `1 (mod 4)` or any
character is outside the base64 alphabet; otherwise decode 6-bit
groups into bytes, a trailing group of two or three characters giving
one or two bytes (leftover bits discarded).  `none` models a thrown
`InvalidCharacterError`. -/

/-- The value of a base64 alphabet character, `none` for any other. -/
def b64Val (c : Char) : Option Nat :=
  if 'A' ≤ c ∧ c ≤ 'Z' then some (c.toNat - 'A'.toNat)
  else if 'a' ≤ c ∧ c ≤ 'z' then some (c.toNat - 'a'.toNat + 26)
  else if '0' ≤ c ∧ c ≤ '9' then some (c.toNat - '0'.toNat + 52)
  else if c = '+' then some 62
  else if c = '/' then some 63
  else none

/-- ASCII whitespace per the forgiving-base64 preprocessing. -/
def isB64Whitespace (c : Char) : Bool :=
  c = ' ' ∨ c = '\t' ∨ c = '\n' ∨ c = '\x0c' ∨ c = '\r'

/-- Strip up to two trailing `=` when the length is a multiple of 4. -/
def stripPad (l : List Char) : List Char :=
  if l.length % 4 = 0 then
    match l.reverse with
    | '=' :: '=' :: r => r.reverse
    | '=' :: r => r.reverse
    | _ => l
  else l

/-- Reassemble 6-bit values into bytes; a final group of one value is
impossible after the length check and yields `none`. -/
def decodeQuads : List Nat → Option (List Nat)
  | [] => some []
  | [_] => none
  | [a, b] => some [a * 4 + b / 16]
  | [a, b, c] => some [a * 4 + b / 16, b % 16 * 16 + c / 4]
  | a :: b :: c :: d :: rest =>
      match decodeQuads rest with
      | none => none
      | some tail =>
          some ([a * 4 + b / 16, b % 16 * 16 + c / 4, c % 4 * 64 + d] ++ tail)

/-- `atob` on a character list: the decoded bytes as characters
(code points 0–255), or `none` when decoding throws. -/
def atobChars (s : List Char) : Option (List Char) :=
  let data := stripPad (s.filter (fun c => ¬ isB64Whitespace c))
  if data.length % 4 = 1 then none
  else
    match data.mapM b64Val with
    | none => none
    | some vals =>
        match decodeQuads vals with
        | none => none
        | some bytes => some (bytes.map Char.ofNat)

/-- `parseClaimsChallengeFromHeader` from claimsManager.ts, on
character lists: extract the quoted `claims` value; try `atob`,
falling back to the raw value when decoding throws. -/
def parseClaimsChallenge (l : List Char) : Option (List Char) :=
  match extractClaims l with
  | none => none
  | some v =>
      match atobChars v with
      | some decoded => some decoded
      | none => some v

/-- `parseClaimsChallengeFromHeader(wwwAuthenticateHeader)` from
claimsManager.ts. -/
def parseClaimsChallengeFromHeader (h : String) : Option String :=
  (parseClaimsChallenge h.data).map fun l => String.mk l

/-! ### claimsManager.ts : handleClaimsChallengeFromResponse,
and authService.ts : callGraphWithClaimsRetry -/

/-- The fields of a fetch `Response` the repository reads.  `json` is
the parsed JSON body when the body is valid JSON (opaque payload). -/
structure HttpResponse where
  status : Nat
  statusText : String
  wwwAuthenticate : Option String
  body : String
  json : Option String
deriving Repr, DecidableEq

/-- `Response.ok`: status in the inclusive range 200–299. -/
def respOk (r : HttpResponse) : Bool :=
  200 ≤ r.status ∧ r.status ≤ 299

/-- `handleClaimsChallengeFromResponse(response, resource)` from
claimsManager.ts: on a 401 with a `WWW-Authenticate` header, parse the
challenge, store it when truthy, and return it together with the
updated store. -/
def handleClaimsChallengeFromResponse (resp : HttpResponse)
    (resource : String) (st : Store) : Option String × Store :=
  if resp.status ≠ 401 then (none, st)
  else
    match resp.wwwAuthenticate with
    | none => (none, st)
    | some wwwAuth =>
        let claims := parseClaimsChallengeFromHeader wwwAuth
        if truthyOpt claims then
          (claims, storeClaimsChallenge st resource (claims.getD ""))
        else (claims, st)

/-- Observable events of `callGraphWithClaimsRetry`, in order. -/
inductive Event where
  | acquireEv (token : String)
  | fetchEv (url : String) (authHeader : String)
  | storeChallengeEv (claims : String)
deriving Repr, DecidableEq

/-- The fetch events of a trace. -/
def fetchEvents (evs : List Event) : List Event :=
  evs.filter fun e =>
    match e with
    | .fetchEv _ _ => true
    | _ => false

/-- Errors surfaced by `callGraphWithClaimsRetry`: a propagated
acquisition error, the `Graph API error ...` thrown on a non-ok
response, or a JSON-parse failure of the success body. -/
inductive CallError where
  | auth (e : JsError)
  | graphError (message : String)
  | jsonError
deriving Repr, DecidableEq

/-- `GRAPH_BASE` from callGraphWithClaimsRetry. -/
def GRAPH_BASE : String := "https://graph.microsoft.com/v1.0"

/-- Lines 233–240 of authService.ts: fail with the composed message on
a non-ok response, otherwise return the parsed JSON body. -/
def finishResponse (resp : HttpResponse) : Except CallError String :=
  if respOk resp then
    match resp.json with
    | some j => .ok j
    | none => .error .jsonError
  else
    .error (.graphError
      ("Graph API error " ++ toString resp.status ++ ": "
        ++ resp.statusText ++ "\n" ++ resp.body))

/-- `callGraphWithClaimsRetry(endpoint, scopes)` from authService.ts,
with oracles for both token acquisitions (silent and interactive
outcomes of each, and the active account each sees) and the two
possible fetch responses.  Returns the result, the ordered event
trace, and the final store. -/
def callGraphWithClaimsRetry (endpoint : String) (scopes : List String)
    (st : Store)
    (account1 : Option String)
    (silent1 interactive1 : Except JsError AuthenticationResult)
    (resp1 : HttpResponse)
    (account2 : Option String)
    (silent2 interactive2 : Except JsError AuthenticationResult)
    (resp2 : HttpResponse) :
    Except CallError String × List Event × Store :=
  let RESOURCE := "graph"
  let a1 := acquireToken scopes RESOURCE st account1 silent1 interactive1
  match a1.result with
  | .error e => (.error (.auth e), [], a1.finalStore)
  | .ok tokenResult1 =>
      let ev1 : List Event :=
        [.acquireEv tokenResult1.accessToken,
         .fetchEv (GRAPH_BASE ++ endpoint)
           ("Bearer " ++ tokenResult1.accessToken)]
      if resp1.status = 401 then
        let handled := handleClaimsChallengeFromResponse resp1 RESOURCE a1.finalStore
        if truthyOpt handled.1 then
          let a2 := acquireToken scopes RESOURCE handled.2 account2
            silent2 interactive2
          match a2.result with
          | .error e =>
              (.error (.auth e),
               ev1 ++ [.storeChallengeEv (handled.1.getD "")],
               a2.finalStore)
          | .ok tokenResult2 =>
              (finishResponse resp2,
               ev1 ++ [.storeChallengeEv (handled.1.getD ""),
                 .acquireEv tokenResult2.accessToken,
                 .fetchEv (GRAPH_BASE ++ endpoint)
                   ("Bearer " ++ tokenResult2.accessToken)],
               a2.finalStore)
        else (finishResponse resp1, ev1, handled.2)
      else (finishResponse resp1, ev1, a1.finalStore)

/-! ### authService.ts : getMsalInstance under cooperative interleaving

`getMsalInstance` reads the module variable `msalInstance`, and when
it is unset, awaits `createNestablePublicClientApplication` (a
suspension point) before assigning it.  The model runs each call as
two atomic steps separated by that suspension point; provider clients
are numbered by construction order. -/

/-- Shared module state: the cached instance (by id), the next fresh
client id, and how many times the provider constructor has run. -/
structure MsalState where
  msalInstance : Option Nat
  nextId : Nat
  constructionCount : Nat
deriving Repr, DecidableEq

/-- Where one call to `getMsalInstance` currently stands. -/
inductive CallPhase where
  | ready
  | awaitingCtor (id : Nat)
  | returned (inst : Nat)
deriving Repr, DecidableEq

/-- One atomic step of a `getMsalInstance` call: the initial check
(returning the cached instance or invoking the constructor and
suspending), or the resumption after the constructor resolves
(assigning `msalInstance` and returning the new client). -/
def stepCall : MsalState → CallPhase → MsalState × CallPhase
  | g, .ready =>
      match g.msalInstance with
      | some inst => (g, .returned inst)
      | none =>
          ({ g with nextId := g.nextId + 1,
                    constructionCount := g.constructionCount + 1 },
           .awaitingCtor g.nextId)
  | g, .awaitingCtor id => ({ g with msalInstance := some id }, .returned id)
  | g, .returned i => (g, .returned i)

/-- Run two concurrent `getMsalInstance` calls under a schedule:
`false` steps call A, `true` steps call B. -/
def runSchedule : List Bool → MsalState → CallPhase → CallPhase →
    MsalState × CallPhase × CallPhase
  | [], g, a, b => (g, a, b)
  | false :: rest, g, a, b =>
      let s := stepCall g a
      runSchedule rest s.1 s.2 b
  | true :: rest, g, a, b =>
      let s := stepCall g b
      runSchedule rest s.1 a s.2

/-- The initial module state: no instance, no constructions. -/
def initMsalState : MsalState :=
  { msalInstance := none, nextId := 0, constructionCount := 0 }

/-! ## Helper lemmas about the session store -/

theorem getItem_removeItem_self (st : Store) (k : String) :
    getItem (removeItem st k) k = none := by
  induction st with
  | nil => rfl
  | cons p rest ih =>
      obtain ⟨k0, v⟩ := p
      by_cases h : k0 = k
      · simpa [removeItem, h] using ih
      · simpa [removeItem, getItem, h] using ih

theorem getItem_removeItem_ne (st : Store) (k k' : String) (h : k ≠ k') :
    getItem (removeItem st k) k' = getItem st k' := by
  induction st with
  | nil => rfl
  | cons p rest ih =>
      obtain ⟨k0, v⟩ := p
      by_cases h0 : k0 = k
      · subst h0
        simpa [removeItem, getItem, h] using ih
      · simp [removeItem, getItem, h0, ih]

theorem getStored_store_self (st : Store) (r c : String) :
    getStoredClaimsChallenge (storeClaimsChallenge st r c) r = some c := by
  simp [getStoredClaimsChallenge, storeClaimsChallenge, setItem, getItem]

theorem claimsKeyOf_inj {r r' : String} (h : claimsKeyOf r = claimsKeyOf r') :
    r = r' := by
  have hd := congrArg String.data h
  simp only [claimsKeyOf, String.data_append] at hd
  exact String.ext (List.append_cancel_left hd)

theorem getStored_store_ne (st : Store) (r r' c : String) (h : r ≠ r') :
    getStoredClaimsChallenge (storeClaimsChallenge st r c) r' =
      getStoredClaimsChallenge st r' := by
  have hk : claimsKeyOf r ≠ claimsKeyOf r' := fun he => h (claimsKeyOf_inj he)
  simp [getStoredClaimsChallenge, storeClaimsChallenge, setItem, getItem, hk,
    getItem_removeItem_ne st _ _ hk]

theorem getStored_clear_self (st : Store) (r : String) :
    getStoredClaimsChallenge (clearClaimsChallenge st r) r = none :=
  getItem_removeItem_self st (claimsKeyOf r)

theorem getStored_clear_ne (st : Store) (r r' : String) (h : r ≠ r') :
    getStoredClaimsChallenge (clearClaimsChallenge st r) r' =
      getStoredClaimsChallenge st r' :=
  getItem_removeItem_ne st _ _ (fun he => h (claimsKeyOf_inj he))

/-! ## Helper lemmas about acquireToken -/

/-- Whatever the provider outcomes, the request passed to
`acquireTokenSilent` is the one built by lines 130–146. -/
theorem acquireToken_silentRequest_eq (scopes : List String)
    (resource : String) (st : Store) (account : Option String)
    (s i : Except JsError AuthenticationResult) :
    (acquireToken scopes resource st account s i).silentRequest =
      buildRequest scopes resource st account := by
  cases s with
  | ok r => rfl
  | error e =>
      cases e with
      | interactionRequired c => cases i <;> rfl
      | other m => rfl

theorem buildRequest_claims_of_truthy (scopes : List String)
    (resource : String) (st : Store) (account : Option String) (c : String)
    (h : getStoredClaimsChallenge st resource = some c) (hc : c ≠ "") :
    (buildRequest scopes resource st account).claims = some c ∧
    (buildRequest scopes resource st account).forceRefresh = some true := by
  cases account <;>
    simp [buildRequest, buildGraphRequest, h, truthyOpt, hc]

theorem buildRequest_claims_of_none (scopes : List String)
    (resource : String) (st : Store) (account : Option String)
    (h : getStoredClaimsChallenge st resource = none) :
    (buildRequest scopes resource st account).claims = none ∧
    (buildRequest scopes resource st account).forceRefresh = none := by
  cases account <;>
    simp [buildRequest, buildGraphRequest, h, truthyOpt]

/-! ## Claim theorems -/

/-- Claim C9: the challenge store is a per-resource map: `get` after
`put(r, c)` returns `c`; `get` after `clear(r)` returns nothing; and
`put`/`clear` on one resource leave every other resource's entry
unchanged. -/
theorem challengeStore_algebra (st : Store) (r r' c : String) :
    getStoredClaimsChallenge (storeClaimsChallenge st r c) r = some c ∧
    getStoredClaimsChallenge (clearClaimsChallenge st r) r = none ∧
    (r ≠ r' →
      getStoredClaimsChallenge (storeClaimsChallenge st r c) r' =
        getStoredClaimsChallenge st r' ∧
      getStoredClaimsChallenge (clearClaimsChallenge st r) r' =
        getStoredClaimsChallenge st r') :=
  ⟨getStored_store_self st r c, getStored_clear_self st r,
    fun h => ⟨getStored_store_ne st r r' c h, getStored_clear_ne st r r' h⟩⟩

/-- Witness for C9 at concrete resources and a concrete challenge. -/
theorem challengeStore_algebra_witness :
    getStoredClaimsChallenge (storeClaimsChallenge [] "graph" "ch") "graph" =
      some "ch" ∧
    getStoredClaimsChallenge (clearClaimsChallenge [] "graph") "graph" = none ∧
    getStoredClaimsChallenge (storeClaimsChallenge [] "graph" "ch") "api" =
      getStoredClaimsChallenge [] "api" ∧
    getStoredClaimsChallenge (clearClaimsChallenge [] "graph") "api" =
      getStoredClaimsChallenge [] "api" :=
  ⟨(challengeStore_algebra [] "graph" "api" "ch").1,
   (challengeStore_algebra [] "graph" "api" "ch").2.1,
   ((challengeStore_algebra [] "graph" "api" "ch").2.2 (by decide)).1,
   ((challengeStore_algebra [] "graph" "api" "ch").2.2 (by decide)).2⟩

/-- Claim C1: when the store holds a non-empty challenge `c` for the
resource, the request passed to `acquireTokenSilent` carries
`claims = c` and `forceRefresh = true`; when no challenge is stored,
neither field is set. -/
theorem acquireToken_challenge_in_silent_request (scopes : List String)
    (resource : String) (st : Store) (account : Option String)
    (s i : Except JsError AuthenticationResult) :
    (∀ c, getStoredClaimsChallenge st resource = some c → c ≠ "" →
      (acquireToken scopes resource st account s i).silentRequest.claims =
        some c ∧
      (acquireToken scopes resource st account s i).silentRequest.forceRefresh =
        some true) ∧
    (getStoredClaimsChallenge st resource = none →
      (acquireToken scopes resource st account s i).silentRequest.claims =
        none ∧
      (acquireToken scopes resource st account s i).silentRequest.forceRefresh =
        none) := by
  rw [acquireToken_silentRequest_eq]
  exact ⟨fun c h hc => buildRequest_claims_of_truthy scopes resource st account c h hc,
    fun h => buildRequest_claims_of_none scopes resource st account h⟩

/-- Witness for C1: a stored challenge `"ch"` is carried with
`forceRefresh`, and with an empty store neither field is set. -/
theorem acquireToken_challenge_in_silent_request_witness :
    ((acquireToken ["User.Read"] "graph"
        (storeClaimsChallenge [] "graph" "ch") none
        (.ok { accessToken := "t" }) (.ok { accessToken := "t" })).silentRequest.claims =
      some "ch" ∧
     (acquireToken ["User.Read"] "graph"
        (storeClaimsChallenge [] "graph" "ch") none
        (.ok { accessToken := "t" }) (.ok { accessToken := "t" })).silentRequest.forceRefresh =
      some true) ∧
    ((acquireToken ["User.Read"] "graph" [] none
        (.ok { accessToken := "t" }) (.ok { accessToken := "t" })).silentRequest.claims =
      none ∧
     (acquireToken ["User.Read"] "graph" [] none
        (.ok { accessToken := "t" }) (.ok { accessToken := "t" })).silentRequest.forceRefresh =
      none) :=
  ⟨(acquireToken_challenge_in_silent_request ["User.Read"] "graph"
      (storeClaimsChallenge [] "graph" "ch") none
      (.ok { accessToken := "t" }) (.ok { accessToken := "t" })).1 "ch"
      (by decide) (by decide),
   (acquireToken_challenge_in_silent_request ["User.Read"] "graph" [] none
      (.ok { accessToken := "t" }) (.ok { accessToken := "t" })).2 rfl⟩

/-- Claim C6: a silent-acquisition failure that is not an
`InteractionRequiredAuthError` is propagated to the caller unchanged,
with no interactive attempt and the store untouched. -/
theorem acquireToken_propagates_other_errors (scopes : List String)
    (resource : String) (st : Store) (account : Option String)
    (i : Except JsError AuthenticationResult) (m : String) :
    (acquireToken scopes resource st account (.error (.other m)) i).result =
      .error (.other m) ∧
    (acquireToken scopes resource st account (.error (.other m)) i).interactiveRequest =
      none ∧
    (acquireToken scopes resource st account (.error (.other m)) i).finalStore =
      st :=
  ⟨rfl, rfl, rfl⟩

/-- Claim C3 (code bug): under the cooperative interleaving where the
second `getMsalInstance` call runs its cached-instance check before
the first call's constructor await resolves, the provider constructor
runs twice and the two calls return distinct instances — the
single-flight guarantee does not hold. -/
theorem getMsalInstance_race_constructs_twice :
    (runSchedule [false, true, false, true] initMsalState .ready .ready).1.constructionCount = 2 ∧
    (runSchedule [false, true, false, true] initMsalState .ready .ready).2.1 =
      .returned 0 ∧
    (runSchedule [false, true, false, true] initMsalState .ready .ready).2.2 =
      .returned 1 := by
  decide

/-- Claim C10: a stored-but-empty challenge entry behaves as if no
challenge were stored: no claims field, no `forceRefresh`, and after a
successful silent acquisition the entry is still present (not
cleared). -/
theorem acquireToken_empty_challenge_ignored (scopes : List String)
    (resource : String) (st : Store) (account : Option String)
    (s i : Except JsError AuthenticationResult)
    (h : getStoredClaimsChallenge st resource = some "") :
    ((acquireToken scopes resource st account s i).silentRequest.claims = none ∧
     (acquireToken scopes resource st account s i).silentRequest.forceRefresh =
       none) ∧
    (∀ r, s = .ok r →
      (acquireToken scopes resource st account s i).finalStore = st ∧
      getStoredClaimsChallenge
        (acquireToken scopes resource st account s i).finalStore resource =
        some "") := by
  constructor
  · rw [acquireToken_silentRequest_eq]
    cases account <;> simp [buildRequest, buildGraphRequest, h, truthyOpt]
  · intro r hs
    subst hs
    have hfin : (acquireToken scopes resource st account (.ok r) i).finalStore = st := by
      simp [acquireToken, h, truthyOpt]
    exact ⟨hfin, by rw [hfin, h]⟩

/-- Witness for C10: with the entry for `"graph"` set to `""`, the
silent request carries neither field and a successful silent
acquisition leaves the store unchanged. -/
theorem acquireToken_empty_challenge_ignored_witness :
    ((acquireToken ["User.Read"] "graph" [("naa_cae_claims_graph", "")] none
        (.ok { accessToken := "t" }) (.ok { accessToken := "t" })).silentRequest.claims =
      none ∧
     (acquireToken ["User.Read"] "graph" [("naa_cae_claims_graph", "")] none
        (.ok { accessToken := "t" }) (.ok { accessToken := "t" })).silentRequest.forceRefresh =
      none) ∧
    ((acquireToken ["User.Read"] "graph" [("naa_cae_claims_graph", "")] none
        (.ok { accessToken := "t" }) (.ok { accessToken := "t" })).finalStore =
      [("naa_cae_claims_graph", "")] ∧
     getStoredClaimsChallenge
        (acquireToken ["User.Read"] "graph" [("naa_cae_claims_graph", "")] none
          (.ok { accessToken := "t" }) (.ok { accessToken := "t" })).finalStore
        "graph" = some "") :=
  ⟨(acquireToken_empty_challenge_ignored ["User.Read"] "graph"
      [("naa_cae_claims_graph", "")] none
      (.ok { accessToken := "t" }) (.ok { accessToken := "t" }) (by decide)).1,
   (acquireToken_empty_challenge_ignored ["User.Read"] "graph"
      [("naa_cae_claims_graph", "")] none
      (.ok { accessToken := "t" }) (.ok { accessToken := "t" }) (by decide)).2
      { accessToken := "t" } rfl⟩

/-- Claim C4: when silent acquisition fails with `InteractionRequired`
carrying a claims string `e`, the interactive request carries
`claims = e` (overriding any store-built claims) and the store holds
`e` for the resource at the moment `acquireTokenPopup` is invoked. -/
theorem acquireToken_error_claims_attached (scopes : List String)
    (resource : String) (st : Store) (account : Option String)
    (i : Except JsError AuthenticationResult) (e : String) (he : e ≠ "") :
    (acquireToken scopes resource st account
        (.error (.interactionRequired (some e))) i).interactiveRequest.map
      PopupRequest.claims = some (some e) ∧
    (acquireToken scopes resource st account
        (.error (.interactionRequired (some e))) i).storeAtInteractive.map
      (fun s => getStoredClaimsChallenge s resource) = some (some e) := by
  cases i <;>
    simp [acquireToken, truthyOpt, he, Option.getD, getStored_store_self]

/-- Witness for C4 at a concrete error-supplied challenge. -/
theorem acquireToken_error_claims_attached_witness :
    (acquireToken ["User.Read"] "graph" [] none
        (.error (.interactionRequired (some "ec")))
        (.ok { accessToken := "t" })).interactiveRequest.map
      PopupRequest.claims = some (some "ec") ∧
    (acquireToken ["User.Read"] "graph" [] none
        (.error (.interactionRequired (some "ec")))
        (.ok { accessToken := "t" })).storeAtInteractive.map
      (fun s => getStoredClaimsChallenge s "graph") = some (some "ec") :=
  acquireToken_error_claims_attached ["User.Read"] "graph" [] none
    (.ok { accessToken := "t" }) "ec" (by decide)

/-- Claim C5: a successful acquisition whose request included a truthy
stored challenge leaves the store entry for the resource empty; in the
interactive-success path the entry is cleared unconditionally. -/
theorem acquireToken_clears_consumed_challenge (scopes : List String)
    (resource : String) (st : Store) (account : Option String)
    (s i : Except JsError AuthenticationResult) :
    (∀ r, (acquireToken scopes resource st account s i).result = .ok r →
      truthyOpt (getStoredClaimsChallenge st resource) = true →
      getStoredClaimsChallenge
        (acquireToken scopes resource st account s i).finalStore resource =
        none) ∧
    (∀ e2 r, s = .error (.interactionRequired e2) → i = .ok r →
      getStoredClaimsChallenge
        (acquireToken scopes resource st account s i).finalStore resource =
        none) := by
  constructor
  · intro r hr ht
    cases s with
    | ok r0 =>
        simp only [acquireToken, ht, if_true]
        exact getStored_clear_self st resource
    | error e =>
        cases e with
        | interactionRequired c =>
            cases i with
            | ok r2 =>
                simp only [acquireToken]
                exact getStored_clear_self _ resource
            | error e2 => simp [acquireToken] at hr
        | other m => simp [acquireToken] at hr
  · intro e2 r hs hi
    subst hs; subst hi
    simp only [acquireToken]
    exact getStored_clear_self _ resource

/-- Witness for C5: silent success with a stored challenge clears the
entry, and interactive success clears it as well. -/
theorem acquireToken_clears_consumed_challenge_witness :
    getStoredClaimsChallenge
      (acquireToken ["User.Read"] "graph" (storeClaimsChallenge [] "graph" "ch")
        none (.ok { accessToken := "t" }) (.ok { accessToken := "t" })).finalStore
      "graph" = none ∧
    getStoredClaimsChallenge
      (acquireToken ["User.Read"] "graph" (storeClaimsChallenge [] "graph" "ch")
        none (.error (.interactionRequired none))
        (.ok { accessToken := "t" })).finalStore "graph" = none :=
  ⟨(acquireToken_clears_consumed_challenge ["User.Read"] "graph"
      (storeClaimsChallenge [] "graph" "ch") none
      (.ok { accessToken := "t" }) (.ok { accessToken := "t" })).1
      { accessToken := "t" } rfl (by decide),
   (acquireToken_clears_consumed_challenge ["User.Read"] "graph"
      (storeClaimsChallenge [] "graph" "ch") none
      (.error (.interactionRequired none)) (.ok { accessToken := "t" })).2
      none { accessToken := "t" } rfl rfl⟩

/-! ## Helper lemmas about the header regex model -/

/-- Lowercasing a list makes the case-insensitive match succeed on any
extension of it. -/
theorem matchesKeyCI_of_map (kv rest : List Char) :
    matchesKeyCI (kv.map Char.toLower) (kv ++ rest) = true := by
  induction kv with
  | nil => rfl
  | cons c cs ih => simp [matchesKeyCI, ih]

/-- A successful case-insensitive match decomposes the scanned list
into a case-variant of the pattern followed by a remainder. -/
theorem matchesKeyCI_imp (p l : List Char) (h : matchesKeyCI p l = true) :
    ∃ kv rest, l = kv ++ rest ∧ kv.map Char.toLower = p := by
  induction p generalizing l with
  | nil => exact ⟨[], l, rfl, rfl⟩
  | cons q qs ih =>
      cases l with
      | nil => simp [matchesKeyCI] at h
      | cons c cs =>
          simp only [matchesKeyCI, Bool.and_eq_true, beq_iff_eq] at h
          obtain ⟨h1, h2⟩ := h
          obtain ⟨kv, rest, hcs, hmap⟩ := ih cs h2
          exact ⟨c :: kv, rest, by simp [hcs], by simp [hmap, h1]⟩

theorem notQuote_eq_true {x : Char} : notQuote x = true ↔ x ≠ '"' := by
  simp [notQuote]

theorem notQuote_eq_false {x : Char} : notQuote x = false ↔ x = '"' := by
  simp [notQuote]

theorem takeWhile_quote_free (v post : List Char) (hv : ∀ x ∈ v, x ≠ '"') :
    (v ++ '"' :: post).takeWhile notQuote = v := by
  induction v with
  | nil =>
      rw [List.nil_append, List.takeWhile_cons,
        if_neg (by rw [notQuote_eq_false.mpr rfl]; exact Bool.false_ne_true)]
  | cons c cs ih =>
      have hc : notQuote c = true := notQuote_eq_true.mpr (hv c (by simp))
      rw [List.cons_append, List.takeWhile_cons, hc, if_pos rfl,
        ih (fun x hx => hv x (by simp [hx]))]

theorem dropWhile_head_false {p : Char → Bool} (l : List Char) (x : Char)
    (xs : List Char) (h : l.dropWhile p = x :: xs) : p x = false := by
  induction l with
  | nil => simp [List.dropWhile] at h
  | cons c cs ih =>
      by_cases hc : p c = true
      · rw [List.dropWhile_cons_of_pos hc] at h
        exact ih h
      · rw [List.dropWhile_cons_of_neg hc] at h
        cases h
        simpa using hc

/-- Soundness of the regex model: any extracted value sits inside the
header as a well-formed `claims="<value>"` pair (case-insensitive key,
non-empty quote-free value). -/
theorem extractClaims_sound (l v : List Char) (h : extractClaims l = some v) :
    ∃ pre kv post, l = pre ++ kv ++ v ++ '"' :: post ∧
      kv.map Char.toLower = keyChars ∧ v ≠ [] ∧ ∀ x ∈ v, x ≠ '"' := by
  induction l with
  | nil => simp [extractClaims] at h
  | cons c rest ih =>
      have step : extractClaims rest = some v →
          ∃ pre kv post, c :: rest = pre ++ kv ++ v ++ '"' :: post ∧
            kv.map Char.toLower = keyChars ∧ v ≠ [] ∧ ∀ x ∈ v, x ≠ '"' := by
        intro h'
        obtain ⟨pre, kv, post, hd, hmap, hne, hqf⟩ := ih h'
        exact ⟨c :: pre, kv, post, by simp [hd], hmap, hne, hqf⟩
      simp only [extractClaims] at h
      by_cases hm : matchesKeyCI keyChars (c :: rest) = true
      · rw [if_pos hm] at h
        by_cases hcond : ((rest.drop 7).takeWhile notQuote).length ≠ 0 ∧
            ((rest.drop 7).takeWhile notQuote).length < (rest.drop 7).length
        · rw [if_pos hcond] at h
          obtain ⟨hne0, hlt⟩ := hcond
          have hv : (rest.drop 7).takeWhile notQuote = v := Option.some.inj h
          obtain ⟨kv, rest2, hl, hmap⟩ := matchesKeyCI_imp keyChars (c :: rest) hm
          have hkvlen : kv.length = 8 := by
            have hlen := congrArg List.length hmap
            simpa [keyChars] using hlen
          have hrest2 : rest2 = rest.drop 7 := by
            have h8 : (c :: rest).drop 8 = rest.drop 7 := rfl
            rw [hl, ← hkvlen, List.drop_left] at h8
            exact h8
          have hsplit := List.takeWhile_append_dropWhile notQuote (rest.drop 7)
          have hdwne : (rest.drop 7).dropWhile notQuote ≠ [] := by
            intro hnil
            rw [hnil, List.append_nil] at hsplit
            rw [hsplit] at hlt
            exact absurd hlt (lt_irrefl _)
          obtain ⟨x, xs, hxs⟩ := List.exists_cons_of_ne_nil hdwne
          have hx : x = '"' := notQuote_eq_false.mp
            (dropWhile_head_false (p := notQuote) (rest.drop 7) x xs hxs)
          refine ⟨[], kv, xs, ?_, hmap, ?_, ?_⟩
          · have key : rest.drop 7 = v ++ '"' :: xs := by
              rw [← hsplit, hxs, hv, hx]
            rw [List.nil_append, hl, hrest2, key, List.append_assoc]
          · intro hnil
            rw [hv, hnil] at hne0
            exact hne0 rfl
          · intro y hy
            rw [← hv] at hy
            exact notQuote_eq_true.mp (List.mem_takeWhile_imp hy)
        · rw [if_neg hcond] at h
          exact step h
      · rw [if_neg hm] at h
        exact step h

/-- Completeness of the regex model: a well-formed pair whose key
occurrence is the leftmost key match is extracted exactly. -/
theorem extractClaims_complete (pre kv v post : List Char)
    (hmap : kv.map Char.toLower = keyChars) (hne : v ≠ [])
    (hqf : ∀ x ∈ v, x ≠ '"')
    (hnk : ∀ i, i < pre.length →
      matchesKeyCI keyChars ((pre ++ kv ++ v ++ '"' :: post).drop i) = false) :
    extractClaims (pre ++ kv ++ v ++ '"' :: post) = some v := by
  induction pre with
  | nil =>
      have hkvlen : kv.length = 8 := by
        have hlen := congrArg List.length hmap
        simpa [keyChars] using hlen
      cases kv with
      | nil => simp at hkvlen
      | cons c kv' =>
          have hkv'len : kv'.length = 7 := by simpa using hkvlen
          have hm : matchesKeyCI keyChars (c :: (kv' ++ (v ++ '"' :: post))) = true := by
            have hmm := matchesKeyCI_of_map (c :: kv') (v ++ '"' :: post)
            rw [hmap] at hmm
            simpa using hmm
          have hafter : (kv' ++ (v ++ '"' :: post)).drop 7 = v ++ '"' :: post := by
            rw [← hkv'len]
            exact List.drop_left kv' (v ++ '"' :: post)
          have hvpos : 0 < v.length := List.length_pos.mpr hne
          have hgoal : ([] ++ c :: kv' ++ v ++ '"' :: post : List Char) =
              c :: (kv' ++ (v ++ '"' :: post)) := by
            simp only [List.nil_append, List.cons_append, List.append_assoc]
          rw [hgoal]
          simp only [extractClaims]
          rw [if_pos hm, hafter, takeWhile_quote_free v post hqf]
          rw [if_pos ⟨by omega,
            by simp only [List.length_append, List.length_cons]; omega⟩]
  | cons p pre' ihp =>
      have hm0 : matchesKeyCI keyChars (p :: (pre' ++ (kv ++ (v ++ '"' :: post)))) = false := by
        have h0 := hnk 0 (by simp)
        simpa [List.append_assoc] using h0
      have hgoal : ((p :: pre') ++ kv ++ v ++ '"' :: post : List Char) =
          p :: (pre' ++ (kv ++ (v ++ '"' :: post))) := by
        simp only [List.cons_append, List.append_assoc]
      rw [hgoal]
      simp only [extractClaims]
      rw [if_neg (by simp [hm0])]
      have hrec := ihp (fun i hi => by
        have hs := hnk (i + 1) (by simpa using Nat.succ_lt_succ hi)
        simpa [List.append_assoc] using hs)
      rw [show (pre' ++ (kv ++ (v ++ '"' :: post)) : List Char) =
          pre' ++ kv ++ v ++ '"' :: post by simp only [List.append_assoc]]
      exact hrec

/-- Claim C7: for a header containing a well-formed
`claims="<value>"` pair (case-insensitive key, value non-empty and
quote-free, the key occurrence being the leftmost key match) whose
value decodes as base64, the parser returns the decoded content; for
a header containing no well-formed pair at all it returns nothing.
(The embedding is a total pure function, matching the source's purity
and absence of side effects.) -/
theorem parseClaims_header_correct :
    (∀ (h : String) (pre kv v post d : List Char),
      h.data = pre ++ kv ++ v ++ '"' :: post →
      kv.map Char.toLower = keyChars →
      v ≠ [] → (∀ x ∈ v, x ≠ '"') →
      (∀ i, i < pre.length → matchesKeyCI keyChars (h.data.drop i) = false) →
      atobChars v = some d →
      parseClaimsChallengeFromHeader h = some (String.mk d)) ∧
    (∀ (h : String),
      (¬ ∃ pre kv v post, h.data = pre ++ kv ++ v ++ '"' :: post ∧
        kv.map Char.toLower = keyChars ∧ v ≠ [] ∧ ∀ x ∈ v, x ≠ '"') →
      parseClaimsChallengeFromHeader h = none) := by
  constructor
  · intro h pre kv v post d hd hmap hne hqf hnk hb
    have hnk' : ∀ i, i < pre.length →
        matchesKeyCI keyChars ((pre ++ kv ++ v ++ '"' :: post).drop i) = false := by
      intro i hi
      have := hnk i hi
      rwa [hd] at this
    have hx : extractClaims h.data = some v := by
      rw [hd]
      exact extractClaims_complete pre kv v post hmap hne hqf hnk'
    simp [parseClaimsChallengeFromHeader, parseClaimsChallenge, hx, hb]
  · intro h hno
    cases hex : extractClaims h.data with
    | none => simp [parseClaimsChallengeFromHeader, parseClaimsChallenge, hex]
    | some v =>
        obtain ⟨pre, kv, post, hd, hm, hn, hq⟩ := extractClaims_sound _ _ hex
        exact absurd ⟨pre, kv, v, post, hd, hm, hn, hq⟩ hno

/-- Witness for C7: a realistic challenge header decodes to its JSON
payload, and a claims-free header yields nothing. -/
theorem parseClaims_header_correct_witness :
    parseClaimsChallengeFromHeader
      "Bearer realm=\"\", error=\"insufficient_claims\", claims=\"eyJ0ZXN0IjoxfQ==\"" =
      some (String.mk "\x7b\"test\":1\x7d".data) ∧
    parseClaimsChallengeFromHeader "Bearer" = none :=
  ⟨parseClaims_header_correct.1
      "Bearer realm=\"\", error=\"insufficient_claims\", claims=\"eyJ0ZXN0IjoxfQ==\""
      "Bearer realm=\"\", error=\"insufficient_claims\", ".data
      "claims=\"".data "eyJ0ZXN0IjoxfQ==".data [] "\x7b\"test\":1\x7d".data
      (by decide) (by decide) (by decide) (by decide) (by decide) (by decide),
   parseClaims_header_correct.2 "Bearer" (by
      rintro ⟨pre, kv, v, post, hd, hmap, hne, -⟩
      have h1 := congrArg List.length hd
      have h2 := congrArg List.length hmap
      have h3 : 0 < v.length := List.length_pos.mpr hne
      have h4 : ("Bearer".data).length = 6 := by decide
      simp only [List.length_append, List.length_cons, List.length_map,
        keyChars, h4] at h1 h2
      simp at h2
      omega)⟩

/-- Claim C8: when the extracted quoted claims value is not valid
base64 (the modelled `atob` fails), the parser returns the raw quoted
value unchanged; the embedding is a total function, matching the
source's catch-and-fall-back (no exception escapes). -/
theorem parseClaims_fallback_raw (h : String) (v : List Char)
    (hex : extractClaims h.data = some v) (hb : atobChars v = none) :
    parseClaimsChallengeFromHeader h = some (String.mk v) := by
  simp [parseClaimsChallengeFromHeader, parseClaimsChallenge, hex, hb]

/-- Witness for C8: a non-base64 quoted value is returned verbatim. -/
theorem parseClaims_fallback_raw_witness :
    parseClaimsChallengeFromHeader "Bearer claims=\"not_valid_b64!\"" =
      some (String.mk "not_valid_b64!".data) :=
  parseClaims_fallback_raw "Bearer claims=\"not_valid_b64!\""
    "not_valid_b64!".data (by decide) (by decide)

/-- Claim C2: when the first response is a 401 whose challenge header
yields a truthy claims value, and both token acquisitions succeed, the
trace is exactly: acquire, fetch, store-challenge, acquire, fetch —
two fetches in total, the retry using the token acquired after the
challenge was stored — and a non-success retried response fails with
the error message carrying the status code and response body, with no
third fetch. -/
theorem callGraph_single_retry (endpoint : String) (scopes : List String)
    (st : Store) (account1 account2 : Option String)
    (s1 i1 : Except JsError AuthenticationResult) (resp1 : HttpResponse)
    (s2 i2 : Except JsError AuthenticationResult) (resp2 : HttpResponse)
    (t1 t2 : AuthenticationResult) (w c : String)
    (h401 : resp1.status = 401)
    (hw : resp1.wwwAuthenticate = some w)
    (hc : parseClaimsChallengeFromHeader w = some c)
    (hc0 : c ≠ "")
    (ha1 : (acquireToken scopes "graph" st account1 s1 i1).result = .ok t1)
    (ha2 : (acquireToken scopes "graph"
        (storeClaimsChallenge
          (acquireToken scopes "graph" st account1 s1 i1).finalStore "graph" c)
        account2 s2 i2).result = .ok t2) :
    (callGraphWithClaimsRetry endpoint scopes st account1 s1 i1 resp1
        account2 s2 i2 resp2).2.1 =
      [.acquireEv t1.accessToken,
       .fetchEv (GRAPH_BASE ++ endpoint) ("Bearer " ++ t1.accessToken),
       .storeChallengeEv c,
       .acquireEv t2.accessToken,
       .fetchEv (GRAPH_BASE ++ endpoint) ("Bearer " ++ t2.accessToken)] ∧
    (fetchEvents (callGraphWithClaimsRetry endpoint scopes st account1 s1 i1
        resp1 account2 s2 i2 resp2).2.1).length = 2 ∧
    (respOk resp2 = false →
      (callGraphWithClaimsRetry endpoint scopes st account1 s1 i1 resp1
          account2 s2 i2 resp2).1 =
        .error (.graphError ("Graph API error " ++ toString resp2.status ++ ": "
          ++ resp2.statusText ++ "\n" ++ resp2.body))) := by
  have hhandle : handleClaimsChallengeFromResponse resp1 "graph"
      (acquireToken scopes "graph" st account1 s1 i1).finalStore =
      (some c, storeClaimsChallenge
        (acquireToken scopes "graph" st account1 s1 i1).finalStore "graph" c) := by
    simp [handleClaimsChallengeFromResponse, h401, hw, hc, truthyOpt, hc0]
  have key : callGraphWithClaimsRetry endpoint scopes st account1 s1 i1 resp1
      account2 s2 i2 resp2 =
      (finishResponse resp2,
       [.acquireEv t1.accessToken,
        .fetchEv (GRAPH_BASE ++ endpoint) ("Bearer " ++ t1.accessToken),
        .storeChallengeEv c,
        .acquireEv t2.accessToken,
        .fetchEv (GRAPH_BASE ++ endpoint) ("Bearer " ++ t2.accessToken)],
       (acquireToken scopes "graph"
         (storeClaimsChallenge
           (acquireToken scopes "graph" st account1 s1 i1).finalStore "graph" c)
         account2 s2 i2).finalStore) := by
    simp [callGraphWithClaimsRetry, ha1, h401, hhandle, ha2, truthyOpt, hc0]
  refine ⟨by rw [key], by rw [key]; rfl, fun hok => ?_⟩
  rw [key]
  simp [finishResponse, hok]

/-- Witness for C2: a concrete 401-with-challenge first response, two
successful acquisitions, and a 403 retried response. -/
theorem callGraph_single_retry_witness :
    (callGraphWithClaimsRetry "/me" ["User.Read"] [] none
        (.ok { accessToken := "t1" }) (.ok { accessToken := "t1" })
        { status := 401, statusText := "Unauthorized",
          wwwAuthenticate := some "Bearer claims=\"eyJ0ZXN0IjoxfQ==\"",
          body := "b1", json := none }
        none (.ok { accessToken := "t2" }) (.ok { accessToken := "t2" })
        { status := 403, statusText := "Forbidden",
          wwwAuthenticate := none, body := "b2", json := none }).2.1 =
      [.acquireEv "t1",
       .fetchEv (GRAPH_BASE ++ "/me") ("Bearer " ++ "t1"),
       .storeChallengeEv "\x7b\"test\":1\x7d",
       .acquireEv "t2",
       .fetchEv (GRAPH_BASE ++ "/me") ("Bearer " ++ "t2")] ∧
    (fetchEvents (callGraphWithClaimsRetry "/me" ["User.Read"] [] none
        (.ok { accessToken := "t1" }) (.ok { accessToken := "t1" })
        { status := 401, statusText := "Unauthorized",
          wwwAuthenticate := some "Bearer claims=\"eyJ0ZXN0IjoxfQ==\"",
          body := "b1", json := none }
        none (.ok { accessToken := "t2" }) (.ok { accessToken := "t2" })
        { status := 403, statusText := "Forbidden",
          wwwAuthenticate := none, body := "b2", json := none }).2.1).length = 2 ∧
    (callGraphWithClaimsRetry "/me" ["User.Read"] [] none
        (.ok { accessToken := "t1" }) (.ok { accessToken := "t1" })
        { status := 401, statusText := "Unauthorized",
          wwwAuthenticate := some "Bearer claims=\"eyJ0ZXN0IjoxfQ==\"",
          body := "b1", json := none }
        none (.ok { accessToken := "t2" }) (.ok { accessToken := "t2" })
        { status := 403, statusText := "Forbidden",
          wwwAuthenticate := none, body := "b2", json := none }).1 =
      .error (.graphError ("Graph API error " ++ toString 403 ++ ": "
        ++ "Forbidden" ++ "\n" ++ "b2")) :=
  ⟨(callGraph_single_retry "/me" ["User.Read"] [] none none
      (.ok { accessToken := "t1" }) (.ok { accessToken := "t1" })
      { status := 401, statusText := "Unauthorized",
        wwwAuthenticate := some "Bearer claims=\"eyJ0ZXN0IjoxfQ==\"",
        body := "b1", json := none }
      (.ok { accessToken := "t2" }) (.ok { accessToken := "t2" })
      { status := 403, statusText := "Forbidden",
        wwwAuthenticate := none, body := "b2", json := none }
      { accessToken := "t1" } { accessToken := "t2" }
      "Bearer claims=\"eyJ0ZXN0IjoxfQ==\"" "\x7b\"test\":1\x7d"
      rfl rfl (by decide) (by decide) rfl rfl).1,
   (callGraph_single_retry "/me" ["User.Read"] [] none none
      (.ok { accessToken := "t1" }) (.ok { accessToken := "t1" })
      { status := 401, statusText := "Unauthorized",
        wwwAuthenticate := some "Bearer claims=\"eyJ0ZXN0IjoxfQ==\"",
        body := "b1", json := none }
      (.ok { accessToken := "t2" }) (.ok { accessToken := "t2" })
      { status := 403, statusText := "Forbidden",
        wwwAuthenticate := none, body := "b2", json := none }
      { accessToken := "t1" } { accessToken := "t2" }
      "Bearer claims=\"eyJ0ZXN0IjoxfQ==\"" "\x7b\"test\":1\x7d"
      rfl rfl (by decide) (by decide) rfl rfl).2.1,
   (callGraph_single_retry "/me" ["User.Read"] [] none none
      (.ok { accessToken := "t1" }) (.ok { accessToken := "t1" })
      { status := 401, statusText := "Unauthorized",
        wwwAuthenticate := some "Bearer claims=\"eyJ0ZXN0IjoxfQ==\"",
        body := "b1", json := none }
      (.ok { accessToken := "t2" }) (.ok { accessToken := "t2" })
      { status := 403, statusText := "Forbidden",
        wwwAuthenticate := none, body := "b2", json := none }
      { accessToken := "t1" } { accessToken := "t2" }
      "Bearer claims=\"eyJ0ZXN0IjoxfQ==\"" "\x7b\"test\":1\x7d"
      rfl rfl (by decide) (by decide) rfl rfl).2.2 (by decide)⟩

end NaaCae
